import Mathlib

/-!
Verification of the ingestion/notification core of the federal regulatory
comment bot.  The definitions below are a shallow embedding of the Python
source:

* `src/database/db.py` — the Store: `upsert_comment_period`, `mark_posted`,
  `get_closing_soon` over an explicit database state;
* `src/scrapers/base.py` — `fetch_page`: the retry/backoff loop over an
  explicit list of transport outcomes;
* `src/scrapers/regulations_gov.py` — the pagination loop of
  `get_new_comment_periods`;
* `src/scrapers/federal_register.py` — `enrich_period` and its merge step.

Dates are modelled as integers (day numbers); the `YYYY-MM-DD` strings of the
source compare exactly like their day numbers.  Network and SQLite are
modelled by explicit state / environment parameters.
-/

namespace CommentBot

/-- The four posting milestones.  `mark_posted` in `db.py` maps the strings
`new`, `7day`, `3day`, `last_day` to the four flag columns and raises
`ValueError` on anything else, so the valid inputs form this enumeration. -/
inductive PostType where
  | new
  | sevenDay
  | threeDay
  | lastDay
deriving DecidableEq, Repr

/-- One row of the `comment_periods` table, with the columns that
`db.py` reads or writes.  Modelled from the spec: the table layout itself
(`schema.sql`) is not in the sources; per spec §3 the optional columns
default to NULL, the four flags start `false`, and `document_id` is the
unique natural key.  `id` is the SQLite rowid. -/
structure Row where
  id : Nat
  document_id : String
  docket_id : String
  title : String
  agency_id : String
  agency_name : String
  posted_date : Int
  comment_end_date : Int
  regulations_url : String
  document_type : Option String
  comment_start_date : Option String
  abstract : Option String
  summary : Option String
  federal_register_url : Option String
  details_url : Option String
  topics : Option String
  keywords : Option String
  source_url : Option String
  posted_new : Bool
  posted_7day_reminder : Bool
  posted_3day_reminder : Bool
  posted_last_day : Bool
deriving DecidableEq, Repr

/-- A row of the `bot_posts` audit table (written by `mark_posted` when a
post URI is supplied). -/
structure BotPost where
  comment_period_id : Nat
  post_type : PostType
  post_uri : String
deriving DecidableEq, Repr

/-- The database state: the `comment_periods` rows, the next fresh rowid,
and the `bot_posts` audit rows. -/
structure DB where
  rows : List Row
  nextId : Nat
  posts : List BotPost
deriving DecidableEq, Repr

/-- The whitelist of optional fields accepted by `upsert_comment_period`
(`db.py` line 89-92). -/
def optional_fields : List String :=
  ["document_type", "comment_start_date", "abstract", "summary",
   "federal_register_url", "details_url", "topics", "keywords", "source_url"]

/-- `provided_optional` of `db.py` line 94 as a lookup: the value supplied
for optional column `f`, or `none` when `f` is outside the whitelist, absent
from the kwargs, or supplied as Python `None`. -/
def providedOpt (kwargs : List (String × Option String)) (f : String) : Option String :=
  if f ∈ optional_fields then
    match kwargs.lookup f with
    | some (some v) => some v
    | _ => none
  else none

/-- Read an optional column of a row by its SQL name. -/
def optField (r : Row) (f : String) : Option String :=
  if f = "document_type" then r.document_type
  else if f = "comment_start_date" then r.comment_start_date
  else if f = "abstract" then r.abstract
  else if f = "summary" then r.summary
  else if f = "federal_register_url" then r.federal_register_url
  else if f = "details_url" then r.details_url
  else if f = "topics" then r.topics
  else if f = "keywords" then r.keywords
  else if f = "source_url" then r.source_url
  else none

/-- The `ON CONFLICT ... DO UPDATE` branch of the upsert SQL applied to a
conflicting row: every base column is overwritten from the draft, each
provided optional column is overwritten, absent optional columns and the
four flags are untouched (`db.py` lines 105-115). -/
def updateRow (docket_id title agency_id agency_name : String)
    (posted_date comment_end_date : Int) (regulations_url : String)
    (p : String → Option String) (r : Row) : Row :=
  { r with
    docket_id := docket_id
    title := title
    agency_id := agency_id
    agency_name := agency_name
    posted_date := posted_date
    comment_end_date := comment_end_date
    regulations_url := regulations_url
    document_type := (p "document_type").or r.document_type
    comment_start_date := (p "comment_start_date").or r.comment_start_date
    abstract := (p "abstract").or r.abstract
    summary := (p "summary").or r.summary
    federal_register_url := (p "federal_register_url").or r.federal_register_url
    details_url := (p "details_url").or r.details_url
    topics := (p "topics").or r.topics
    keywords := (p "keywords").or r.keywords
    source_url := (p "source_url").or r.source_url }

/-- The INSERT branch of the upsert SQL: absent optional columns become
NULL and the flags take their schema defaults (`false`, modelled from the
spec since `schema.sql` is not among the sources). -/
def insertRow (id : Nat) (document_id docket_id title agency_id agency_name : String)
    (posted_date comment_end_date : Int) (regulations_url : String)
    (p : String → Option String) : Row :=
  { id := id
    document_id := document_id
    docket_id := docket_id
    title := title
    agency_id := agency_id
    agency_name := agency_name
    posted_date := posted_date
    comment_end_date := comment_end_date
    regulations_url := regulations_url
    document_type := p "document_type"
    comment_start_date := p "comment_start_date"
    abstract := p "abstract"
    summary := p "summary"
    federal_register_url := p "federal_register_url"
    details_url := p "details_url"
    topics := p "topics"
    keywords := p "keywords"
    source_url := p "source_url"
    posted_new := false
    posted_7day_reminder := false
    posted_3day_reminder := false
    posted_last_day := false }

/-- Core of `upsert_comment_period` (`db.py` lines 54-131) once the
provided-optional map has been computed: insert a fresh row, or on a
`document_id` conflict update the existing row; return the new state and
the rowid of the inserted/updated record. -/
def upsertWithProvided (s : DB)
    (document_id docket_id title agency_id agency_name : String)
    (posted_date comment_end_date : Int) (regulations_url : String)
    (p : String → Option String) : DB × Nat :=
  if s.rows.any (fun r => r.document_id == document_id) then
    let rows := s.rows.map (fun r =>
      if r.document_id == document_id then
        updateRow docket_id title agency_id agency_name
          posted_date comment_end_date regulations_url p r
      else r)
    let id := ((s.rows.find? (fun r => r.document_id == document_id)).map Row.id).getD 0
    ({ s with rows := rows }, id)
  else
    let r := insertRow s.nextId document_id docket_id title agency_id agency_name
      posted_date comment_end_date regulations_url p
    ({ s with rows := s.rows ++ [r], nextId := s.nextId + 1 }, s.nextId)

/-- `upsert_comment_period` of `db.py`: required columns as positional
arguments, the `**kwargs` dictionary as an association list (Python keyword
arguments cannot repeat a name). -/
def upsert_comment_period (s : DB)
    (document_id docket_id title agency_id agency_name : String)
    (posted_date comment_end_date : Int) (regulations_url : String)
    (kwargs : List (String × Option String)) : DB × Nat :=
  upsertWithProvided s document_id docket_id title agency_id agency_name
    posted_date comment_end_date regulations_url (providedOpt kwargs)

/-- A draft: the argument bundle of one `upsert_comment_period` call. -/
structure Draft where
  document_id : String
  docket_id : String
  title : String
  agency_id : String
  agency_name : String
  posted_date : Int
  comment_end_date : Int
  regulations_url : String
  kwargs : List (String × Option String)
deriving DecidableEq, Repr

/-- Apply `upsert_comment_period` to a bundled draft. -/
def upsertDraft (s : DB) (d : Draft) : DB × Nat :=
  upsert_comment_period s d.document_id d.docket_id d.title d.agency_id
    d.agency_name d.posted_date d.comment_end_date d.regulations_url d.kwargs

/-- Read the flag column of a row for a milestone. -/
def flagOf (r : Row) : PostType → Bool
  | .new => r.posted_new
  | .sevenDay => r.posted_7day_reminder
  | .threeDay => r.posted_3day_reminder
  | .lastDay => r.posted_last_day

/-- `SET field = 1` of `mark_posted` (`db.py` line 236) for one row. -/
def setFlag (r : Row) : PostType → Row
  | .new => { r with posted_new := true }
  | .sevenDay => { r with posted_7day_reminder := true }
  | .threeDay => { r with posted_3day_reminder := true }
  | .lastDay => { r with posted_last_day := true }

/-- `mark_posted` of `db.py` (lines 209-248): set the flag for the given
milestone on the row with the given id, and append one `bot_posts` row when
a post URI is supplied. -/
def mark_posted (s : DB) (period_id : Nat) (post_type : PostType)
    (post_uri : Option String) : DB :=
  let rows := s.rows.map (fun r => if r.id == period_id then setFlag r post_type else r)
  let posts := match post_uri with
    | some uri => s.posts ++ [⟨period_id, post_type, uri⟩]
    | none => s.posts
  { s with rows := rows, posts := posts }

/-- Row ordering of `get_closing_soon`'s `ORDER BY agency_id, title`. -/
def rowLE (a b : Row) : Bool :=
  a.agency_id < b.agency_id || (a.agency_id == b.agency_id && !(b.title < a.title))

/-- `get_closing_soon` of `db.py` (lines 168-206): rows whose
`comment_end_date` equals `today + days` and whose reminder flag for that
milestone is still unset, ordered by agency and title; `days` outside
`{7, 3, 1}` raises `ValueError`. -/
def get_closing_soon (s : DB) (today : Int) (days : Int) :
    Except String (List Row) :=
  let target_date := today + days
  let reminder_field : Option PostType :=
    if days = 7 then some .sevenDay
    else if days = 3 then some .threeDay
    else if days = 1 then some .lastDay
    else none
  match reminder_field with
  | none => .error "days must be 7, 3, or 1"
  | some fld =>
    .ok ((s.rows.filter (fun r =>
      r.comment_end_date == target_date && flagOf r fld == false)).mergeSort rowLE)

/-- Database well-formedness: rowids are below the next fresh id, and both
rowids and document ids are unique.  Modelled from the spec: uniqueness of
`document_id` is the table's natural-key constraint (`schema.sql` is not
among the sources; spec §3 declares `document_id` globally unique) and
rowid uniqueness is SQLite's. -/
def WF (s : DB) : Prop :=
  (∀ r ∈ s.rows, r.id < s.nextId) ∧
  (s.rows.map Row.id).Nodup ∧
  (s.rows.map Row.document_id).Nodup

/-- The update applied to rows by `upsertDraft`. -/
def upsertFn (d : Draft) (r : Row) : Row :=
  if r.document_id == d.document_id then
    updateRow d.docket_id d.title d.agency_id d.agency_name
      d.posted_date d.comment_end_date d.regulations_url (providedOpt d.kwargs) r
  else r

/-- The row inserted by `upsertDraft` when the document id is new. -/
def upsertNewRow (s : DB) (d : Draft) : Row :=
  insertRow s.nextId d.document_id d.docket_id d.title d.agency_id d.agency_name
    d.posted_date d.comment_end_date d.regulations_url (providedOpt d.kwargs)

/-- The update applied to rows by `mark_posted`. -/
def markFn (pid : Nat) (u : PostType) (r : Row) : Row :=
  if r.id == pid then setFlag r u else r

/-- One operation against the Store: an ingestion upsert or a dispatch
recording. -/
inductive Op where
  | upsert (d : Draft)
  | markPosted (period_id : Nat) (post_type : PostType) (post_uri : Option String)
deriving DecidableEq, Repr

/-- Apply one operation to the database state. -/
def stepOp (s : DB) : Op → DB
  | .upsert d => (upsertDraft s d).1
  | .markPosted pid t uri => mark_posted s pid t uri

/-- Run a sequence of operations. -/
def runOps (s : DB) (ops : List Op) : DB :=
  ops.foldl stepOp s

/-! ## Fetch engine (`src/scrapers/base.py`, `fetch_page`) -/

/-- What the transport yields for one attempt of the retry loop: an HTTP
response (status, optional raw `Retry-After` header value, body), a timeout,
a connection error, or some other `RequestException`. -/
inductive Outcome where
  | resp (status : Nat) (retryAfter : Option String) (body : String)
  | timeout
  | connError
  | reqError
deriving DecidableEq, Repr

/-- A successful response as returned to the caller. -/
structure Resp where
  status : Nat
  body : String
deriving DecidableEq, Repr

/-- The observable result of `fetch_page`: a response, `None`, or an
exception that escaped the `except` clauses (which catch only the
`requests` transport exceptions). -/
inductive FetchResult where
  | ok (r : Resp)
  | failed
  | raised (msg : String)
deriving DecidableEq, Repr

/-- Numeric value of a nonempty run of decimal digits. -/
def digitsVal (ds : List Char) : Nat :=
  ds.foldl (fun n c => n * 10 + (c.toNat - 48)) 0

/-- Python `int(s)` on a string: optional surrounding whitespace, optional
sign, decimal digits; anything else raises `ValueError` (`none` here). -/
def pyInt (s : String) : Option Int :=
  let t := ((s.data.dropWhile Char.isWhitespace).reverse.dropWhile
    Char.isWhitespace).reverse
  let signDigits : Int × List Char :=
    match t with
    | '-' :: rest => (-1, rest)
    | '+' :: rest => (1, rest)
    | _ => (1, t)
  let sign := signDigits.1
  let ds := signDigits.2
  if ds ≠ [] ∧ ds.all Char.isDigit then some (sign * (digitsVal ds : Int))
  else none

/-- The wait chosen by the 429 branch of `fetch_page` (`base.py` line 115):
`int(response.headers.get('Retry-After', 60))` — the literal 60 when the
header is absent, otherwise the parsed header, `none` when `int` raises. -/
def retryAfterWait : Option String → Option Int
  | none => some 60
  | some s => pyInt s

/-- The `for attempt in range(max_retries)` loop of `fetch_page`
(`base.py` lines 102-149), consuming one transport outcome per attempt.
Returns the result together with the list of sleep durations performed
(excluding the initial rate-limit pacing).  A 429 whose `Retry-After`
fails to parse, or parses negative, raises `ValueError` out of the loop
(`int(...)` resp. `time.sleep(...)` — neither is a `requests` exception). -/
def fetchPageLoop (maxRetries attempt : Nat) (outcomes : List Outcome) :
    FetchResult × List Int :=
  if attempt < maxRetries then
      match outcomes with
      | [] => (.failed, [])
      | o :: rest =>
        match o with
        | .resp status retryAfter body =>
          if status == 429 then
            match retryAfterWait retryAfter with
            | none => (.raised "ValueError", [])
            | some w =>
              if w < 0 then (.raised "ValueError", [])
              else
                let p := fetchPageLoop maxRetries (attempt + 1) rest
                (p.1, w :: p.2)
          else if 500 ≤ status && status < 600 then
            let p := fetchPageLoop maxRetries (attempt + 1) rest
            (p.1, ((2 : Int) ^ attempt) :: p.2)
          else if 400 ≤ status && status < 500 then
            (.failed, [])
          else
            (.ok ⟨status, body⟩, [])
        | .timeout =>
          let p := fetchPageLoop maxRetries (attempt + 1) rest
          (p.1, ((2 : Int) ^ attempt) :: p.2)
        | .connError =>
          let p := fetchPageLoop maxRetries (attempt + 1) rest
          (p.1, ((2 : Int) ^ attempt) :: p.2)
        | .reqError => (.failed, [])
    else (.failed, [])

/-- `fetch_page` of `base.py`: run the retry loop from attempt 0. -/
def fetch_page (maxRetries : Nat) (outcomes : List Outcome) : FetchResult × List Int :=
  fetchPageLoop maxRetries 0 outcomes

/-- An outcome is retried by `fetch_page` (rather than terminating the
call): a 5xx response, a timeout, or a connection error. -/
def retryable : Outcome → Bool
  | .resp status _ _ => 500 ≤ status && status < 600
  | .timeout => true
  | .connError => true
  | .reqError => false

/-- An outcome cannot make `fetch_page` raise: everything except a 429
response whose `Retry-After` header fails to parse as a nonnegative
integer. -/
def safe429 : Outcome → Bool
  | .resp status retryAfter _ =>
    if status == 429 then
      match retryAfterWait retryAfter with
      | some w => decide (0 ≤ w)
      | none => false
    else true
  | _ => true

/-! ## Pagination (`src/scrapers/regulations_gov.py`,
`get_new_comment_periods`) -/

/-- The server's answer to the request for one page of the search
endpoint, as the loop body observes it: `fetch_page` returned `None`,
`response.json()` raised, the payload had no `data` key, or a list of
documents plus the `meta.totalPages` value (defaulting to 1 when absent,
as in the source). -/
inductive PageResult (α : Type) where
  | fetchFail
  | parseFail
  | noData
  | ok (docs : List α) (totalPages : Nat)
deriving DecidableEq, Repr

/-- Does this page response terminate the loop without contributing
documents? -/
def PageResult.isFailure {α : Type} : PageResult α → Bool
  | .fetchFail => true
  | .parseFail => true
  | .noData => true
  | .ok _ _ => false

/-- The `while True` pagination loop of `get_new_comment_periods`
(`regulations_gov.py` lines 85-125): on any failure break with the
documents accumulated so far; on success extend the accumulator and stop
once `current_page >= total_pages`, else request the next page. -/
def paginateLoop {α : Type} (pages : List (PageResult α)) (currentPage : Nat)
    (acc : List α) : List α :=
  match pages with
  | [] => acc
  | p :: rest =>
    match p with
    | .fetchFail => acc
    | .parseFail => acc
    | .noData => acc
    | .ok docs totalPages =>
      let acc2 := acc ++ docs
      if totalPages ≤ currentPage then acc2
      else paginateLoop rest (currentPage + 1) acc2

/-- Hypothesis-side predicate for the pagination theorem: with the loop at
page `cp`, each successive successful page reports a `totalPages` strictly
above the page it answers, so the loop requests the next page. -/
def contOk {α : Type} : Nat → List (List α × Nat) → Bool
  | _, [] => true
  | cp, (_, t) :: rest => decide (cp < t) && contOk (cp + 1) rest

/-- `get_new_comment_periods` of `regulations_gov.py`, abstracted over the
page responses the server produces for pages 1, 2, …: start at page 1 with
an empty accumulator. -/
def get_new_comment_periods {α : Type} (pages : List (PageResult α)) : List α :=
  paginateLoop pages 1 []

/-! ## Enrichment (`src/scrapers/federal_register.py`, `enrich_period`) -/

/-- A primary comment-period draft as `enrich_period` sees it: the fields
the function reads or writes, plus `rest` for every other key of the
dictionary (carried through untouched). -/
structure Period where
  document_id : String
  federal_register_url : Option String
  abstract : Option String
  keywords : Option String
  document_type : Option String
  rest : List (String × String)
deriving DecidableEq, Repr

/-- A Federal Register document as consumed by the merge step: `abstract`,
`topics` (absent modelled as `[]`, which Python treats identically), and
`action`. -/
structure FrDoc where
  abstract : Option String
  topics : List String
  action : Option String
deriving DecidableEq, Repr

/-- Python truthiness of an optional string: absent and `""` are falsy. -/
def truthy : Option String → Bool
  | none => false
  | some s => !s.isEmpty

/-- `sorted(set(xs))` on strings: the distinct elements in increasing
lexicographic order. -/
def sortedSet (xs : List String) : List String :=
  xs.eraseDups.mergeSort (fun a b => !(b < a))

/-- The merge step of `enrich_period` (`federal_register.py` lines 81-102)
applied to a fetched Federal Register document: the secondary abstract
fills an empty/absent primary abstract, secondary topics are unioned with
the existing keywords and re-serialized sorted, and the secondary action
fills an empty/absent `document_type`. -/
def mergeFrData (period : Period) (fr_doc : FrDoc) : Period :=
  let enhanced := period
  let enhanced :=
    if truthy fr_doc.abstract && !truthy period.abstract then
      { enhanced with abstract := fr_doc.abstract }
    else enhanced
  let enhanced :=
    if fr_doc.topics ≠ [] then
      let existing_topics :=
        if truthy period.keywords then (period.keywords.getD "").splitOn ", " else []
      let all_topics := sortedSet (existing_topics ++ fr_doc.topics)
      { enhanced with keywords := some (String.intercalate ", " all_topics) }
    else enhanced
  let enhanced :=
    if truthy fr_doc.action && !truthy period.document_type then
      { enhanced with document_type := fr_doc.action }
    else enhanced
  enhanced

/-- `enrich_period` of `federal_register.py` (lines 50-102), abstracted
over the document fetch (`get_document`, which returns `None` on any fetch
or parse failure): extract the FR document number from the cross-reference
URL, pass the period through unchanged when there is none (or the fetch
fails), otherwise merge. -/
def enrich_period (fetchDoc : String → Option FrDoc) (period : Period) : Period :=
  let fr_doc_num : Option String :=
    if truthy period.federal_register_url then
      let url := period.federal_register_url.getD ""
      let parts := (url.dropRightWhile (· == '/')).splitOn "/"
      if parts.length > 0 then some (parts.getLastD "") else none
    else none
  if !truthy fr_doc_num then period
  else
    match fetchDoc (fr_doc_num.getD "") with
    | none => period
    | some fr_doc => mergeFrData period fr_doc

/-! ## Store lemmas -/

theorem flagOf_setFlag_true {r : Row} {t u : PostType} (h : flagOf r t = true) :
    flagOf (setFlag r u) t = true := by
  cases t <;> cases u <;> simp_all [flagOf, setFlag]

theorem flagOf_setFlag_cases {r : Row} {t u : PostType}
    (h : flagOf (setFlag r u) t = true) : t = u ∨ flagOf r t = true := by
  cases t <;> cases u <;> simp_all [flagOf, setFlag]

theorem id_setFlag (r : Row) (u : PostType) : (setFlag r u).id = r.id := by
  cases u <;> rfl

theorem docid_setFlag (r : Row) (u : PostType) :
    (setFlag r u).document_id = r.document_id := by
  cases u <;> rfl

theorem flagOf_updateRow (a b c d : String) (e f : Int) (g : String)
    (p : String → Option String) (r : Row) (t : PostType) :
    flagOf (updateRow a b c d e f g p r) t = flagOf r t := by
  cases t <;> rfl

theorem flagOf_insertRow (i : Nat) (a b c d e : String) (f g : Int) (h : String)
    (p : String → Option String) (t : PostType) :
    flagOf (insertRow i a b c d e f g h p) t = false := by
  cases t <;> rfl

theorem upsertDraft_eq (s : DB) (d : Draft) :
    upsertDraft s d =
      if s.rows.any (fun r => r.document_id == d.document_id) then
        ({ s with rows := s.rows.map (upsertFn d) },
         ((s.rows.find? (fun r => r.document_id == d.document_id)).map Row.id).getD 0)
      else
        ({ s with rows := s.rows ++ [upsertNewRow s d], nextId := s.nextId + 1 },
         s.nextId) := by
  unfold upsertDraft upsert_comment_period upsertWithProvided upsertFn upsertNewRow
  split <;> rfl

theorem upsertFn_id (d : Draft) (r : Row) : (upsertFn d r).id = r.id := by
  unfold upsertFn; split <;> rfl

theorem upsertFn_docid (d : Draft) (r : Row) :
    (upsertFn d r).document_id = r.document_id := by
  unfold upsertFn; split <;> rfl

theorem upsertFn_flag (d : Draft) (r : Row) (t : PostType) :
    flagOf (upsertFn d r) t = flagOf r t := by
  unfold upsertFn; split
  · exact flagOf_updateRow _ _ _ _ _ _ _ _ _ _
  · rfl

theorem mark_posted_rows (s : DB) (pid : Nat) (u : PostType) (uri : Option String) :
    (mark_posted s pid u uri).rows = s.rows.map (markFn pid u) := rfl

theorem markFn_id (pid : Nat) (u : PostType) (r : Row) : (markFn pid u r).id = r.id := by
  unfold markFn; split
  · exact id_setFlag _ _
  · rfl

theorem markFn_docid (pid : Nat) (u : PostType) (r : Row) :
    (markFn pid u r).document_id = r.document_id := by
  unfold markFn; split
  · exact docid_setFlag _ _
  · rfl

theorem markFn_flag_true (pid : Nat) (u : PostType) {r : Row} {t : PostType}
    (h : flagOf r t = true) : flagOf (markFn pid u r) t = true := by
  unfold markFn; split
  · exact flagOf_setFlag_true h
  · exact h

/-- Rows of any step are the image of the old rows under an id-, document-
id- and true-flag-preserving map, possibly extended with one all-flags-false
fresh row. -/
theorem row_id_unique {s : DB} (h : WF s) {r1 r2 : Row}
    (h1 : r1 ∈ s.rows) (h2 : r2 ∈ s.rows) (hid : r1.id = r2.id) : r1 = r2 :=
  List.inj_on_of_nodup_map h.2.1 h1 h2 hid

theorem WF_stepOp {s : DB} (h : WF s) (op : Op) : WF (stepOp s op) := by
  obtain ⟨hbound, hids, hdocs⟩ := h
  cases op with
  | upsert d =>
    show WF (upsertDraft s d).1
    rw [upsertDraft_eq]
    split
    · refine ⟨?_, ?_, ?_⟩
      · intro r hr
        simp only [List.mem_map] at hr
        obtain ⟨r0, hr0, rfl⟩ := hr
        rw [upsertFn_id]; exact hbound r0 hr0
      · have : (s.rows.map (upsertFn d)).map Row.id = s.rows.map Row.id := by
          rw [List.map_map]
          exact List.map_congr_left (fun r _ => upsertFn_id d r)
        simpa [Function.comp, this] using hids
      · have : (s.rows.map (upsertFn d)).map Row.document_id
            = s.rows.map Row.document_id := by
          rw [List.map_map]
          exact List.map_congr_left (fun r _ => upsertFn_docid d r)
        simpa [Function.comp, this] using hdocs
    · next hany =>
      refine ⟨?_, ?_, ?_⟩
      · intro r hr
        simp only [List.mem_append, List.mem_singleton] at hr
        rcases hr with hr | rfl
        · exact Nat.lt_succ_of_lt (hbound r hr)
        · exact Nat.lt_succ_self _
      · simp only [List.map_append]
        rw [List.nodup_append]
        refine ⟨hids, List.nodup_singleton _, ?_⟩
        intro i hi hi'
        simp only [List.mem_map] at hi
        obtain ⟨r0, hr0, rfl⟩ := hi
        simp only [upsertNewRow, insertRow, List.map_cons, List.map_nil,
          List.mem_singleton] at hi'
        exact absurd hi' (Nat.ne_of_lt (hbound r0 hr0))
      · simp only [List.map_append]
        rw [List.nodup_append]
        refine ⟨hdocs, List.nodup_singleton _, ?_⟩
        intro x hx hx'
        simp only [List.mem_map] at hx
        obtain ⟨r0, hr0, rfl⟩ := hx
        simp only [upsertNewRow, insertRow, List.map_cons, List.map_nil,
          List.mem_singleton] at hx'
        exact hany (List.any_eq_true.mpr ⟨r0, hr0, by simp [hx']⟩)
  | markPosted pid u uri =>
    show WF (mark_posted s pid u uri)
    refine ⟨?_, ?_, ?_⟩
    · intro r hr
      rw [mark_posted_rows] at hr
      simp only [List.mem_map] at hr
      obtain ⟨r0, hr0, rfl⟩ := hr
      rw [markFn_id]
      exact hbound r0 hr0
    · rw [mark_posted_rows]
      have : (s.rows.map (markFn pid u)).map Row.id = s.rows.map Row.id := by
        rw [List.map_map]
        exact List.map_congr_left (fun r _ => markFn_id pid u r)
      simpa [this] using hids
    · rw [mark_posted_rows]
      have : (s.rows.map (markFn pid u)).map Row.document_id
          = s.rows.map Row.document_id := by
        rw [List.map_map]
        exact List.map_congr_left (fun r _ => markFn_docid pid u r)
      simpa [this] using hdocs

theorem exists_row_stepOp {s : DB} {r : Row} (hr : r ∈ s.rows) (op : Op) :
    ∃ r1 ∈ (stepOp s op).rows, r1.id = r.id ∧
      ∀ t, flagOf r t = true → flagOf r1 t = true := by
  cases op with
  | upsert d =>
    show ∃ r1 ∈ (upsertDraft s d).1.rows, _
    rw [upsertDraft_eq]
    split
    · exact ⟨upsertFn d r, List.mem_map_of_mem _ hr, upsertFn_id d r,
        fun t ht => by rw [upsertFn_flag]; exact ht⟩
    · exact ⟨r, List.mem_append_left _ hr, rfl, fun t ht => ht⟩
  | markPosted pid u uri =>
    refine ⟨markFn pid u r, ?_, markFn_id pid u r, fun t ht => markFn_flag_true pid u ht⟩
    rw [show (stepOp s (.markPosted pid u uri)).rows = s.rows.map (markFn pid u) from rfl]
    exact List.mem_map_of_mem _ hr

theorem flag_mono_stepOp {s : DB} (hWF : WF s) {r : Row} {t : PostType}
    (hr : r ∈ s.rows) (hflag : flagOf r t = true) (op : Op) :
    ∀ r' ∈ (stepOp s op).rows, r'.id = r.id → flagOf r' t = true := by
  intro r' hr' hid
  cases op with
  | upsert d =>
    rw [show stepOp s (.upsert d) = (upsertDraft s d).1 from rfl, upsertDraft_eq] at hr'
    revert hr'
    split
    · intro hr'
      simp only [List.mem_map] at hr'
      obtain ⟨r0, hr0, rfl⟩ := hr'
      rw [upsertFn_id] at hid
      have : r0 = r := row_id_unique hWF hr0 hr hid
      subst this
      rw [upsertFn_flag]; exact hflag
    · intro hr'
      simp only [List.mem_append, List.mem_singleton] at hr'
      rcases hr' with hr' | rfl
      · have : r' = r := row_id_unique hWF hr' hr hid
        subst this; exact hflag
      · exfalso
        have hlt : r.id < s.nextId := hWF.1 r hr
        simp only [upsertNewRow, insertRow] at hid
        omega
  | markPosted pid u uri =>
    rw [show stepOp s (.markPosted pid u uri) = mark_posted s pid u uri from rfl,
      mark_posted_rows] at hr'
    simp only [List.mem_map] at hr'
    obtain ⟨r0, hr0, rfl⟩ := hr'
    rw [markFn_id] at hid
    have : r0 = r := row_id_unique hWF hr0 hr hid
    subst this
    exact markFn_flag_true pid u hflag

theorem flag_mono_runOps {s : DB} (hWF : WF s) {r : Row} {t : PostType}
    (hr : r ∈ s.rows) (hflag : flagOf r t = true) (ops : List Op) :
    ∀ r' ∈ (runOps s ops).rows, r'.id = r.id → flagOf r' t = true := by
  induction ops generalizing s r with
  | nil =>
    intro r' hr' hid
    have : r' = r := row_id_unique hWF hr' hr hid
    subst this; exact hflag
  | cons op ops ih =>
    intro r' hr' hid
    obtain ⟨r1, hr1, hid1, hf1⟩ := exists_row_stepOp hr op
    have := ih (WF_stepOp hWF op) hr1 (hf1 t hflag) r' hr'
    exact this (hid.trans hid1.symm)

theorem flag_raised_stepOp {s : DB} (op : Op) {t : PostType} :
    ∀ r' ∈ (stepOp s op).rows, flagOf r' t = true →
      (∃ r0 ∈ s.rows, r0.id = r'.id ∧ flagOf r0 t = true) ∨
      ∃ uri, op = Op.markPosted r'.id t uri := by
  intro r' hr' hflag
  cases op with
  | upsert d =>
    rw [show stepOp s (.upsert d) = (upsertDraft s d).1 from rfl, upsertDraft_eq] at hr'
    revert hr'
    split
    · intro hr'
      simp only [List.mem_map] at hr'
      obtain ⟨r0, hr0, rfl⟩ := hr'
      rw [upsertFn_flag] at hflag
      exact Or.inl ⟨r0, hr0, (upsertFn_id d r0).symm, hflag⟩
    · intro hr'
      simp only [List.mem_append, List.mem_singleton] at hr'
      rcases hr' with hr' | rfl
      · exact Or.inl ⟨r', hr', rfl, hflag⟩
      · rw [show (upsertNewRow s d) = insertRow s.nextId d.document_id d.docket_id
            d.title d.agency_id d.agency_name d.posted_date d.comment_end_date
            d.regulations_url (providedOpt d.kwargs) from rfl,
          flagOf_insertRow] at hflag
        exact absurd hflag (by simp)
  | markPosted pid u uri =>
    rw [show stepOp s (.markPosted pid u uri) = mark_posted s pid u uri from rfl,
      mark_posted_rows] at hr'
    simp only [List.mem_map] at hr'
    obtain ⟨r0, hr0, rfl⟩ := hr'
    unfold markFn at hflag ⊢
    by_cases hid : r0.id == pid
    · rw [if_pos hid] at hflag ⊢
      rcases flagOf_setFlag_cases hflag with rfl | hold
      · refine Or.inr ⟨uri, ?_⟩
        rw [id_setFlag]
        simp only [beq_iff_eq] at hid
        rw [hid]
      · exact Or.inl ⟨r0, hr0, (id_setFlag r0 u).symm, hold⟩
    · rw [if_neg (by simpa using hid)] at hflag ⊢
      exact Or.inl ⟨r0, hr0, rfl, hflag⟩

/-- Claim C1: for every comment period row, each of the four flags is
monotonic — once a flag is `true`, no sequence of `upsert_comment_period`
(or `mark_posted`) calls ever resets it to `false`; and the only operation
that sets a flag is `mark_posted` for the corresponding milestone, moving
it from `false` to `true`. -/
theorem C1_flag_monotonicity (s : DB) (hWF : WF s) (t : PostType) :
    (∀ r ∈ s.rows, flagOf r t = true → ∀ ops : List Op,
       ((runOps s ops).rows.all (fun r2 => r2.id != r.id || flagOf r2 t)) = true)
  ∧ (∀ op : Op, ∀ r2 ∈ (stepOp s op).rows, flagOf r2 t = true →
       (∃ r0 ∈ s.rows, r0.id = r2.id ∧ flagOf r0 t = true) ∨
       ∃ uri, op = Op.markPosted r2.id t uri) := by
  constructor
  · intro r hr hflag ops
    rw [List.all_eq_true]
    intro r2 hr2
    by_cases hid : r2.id = r.id
    · have := flag_mono_runOps hWF hr hflag ops r2 hr2 hid
      simp [this]
    · simp [hid]
  · intro op r2 hr2 hflag
    exact flag_raised_stepOp op r2 hr2 hflag

/-- Witness for C1 at a concrete database and operation sequence. -/
theorem C1_flag_monotonicity_witness :
    ((runOps
        ⟨[⟨1, "EPA-1", "EPA-1", "T", "EPA", "EPA", 0, 30, "u",
           none, none, none, none, none, none, none, none, none,
           true, false, false, false⟩], 2, []⟩
        [Op.upsert ⟨"EPA-1", "EPA-1", "T2", "EPA", "EPA", 0, 30, "u",
           [("abstract", some "A")]⟩,
         Op.markPosted 1 PostType.sevenDay none]).rows.all
      (fun r2 => r2.id != 1 || flagOf r2 PostType.new)) = true :=
  (C1_flag_monotonicity _ ⟨by decide, by decide, by decide⟩ PostType.new).1
    ⟨1, "EPA-1", "EPA-1", "T", "EPA", "EPA", 0, 30, "u",
     none, none, none, none, none, none, none, none, none,
     true, false, false, false⟩ (by decide) (by decide) _

/-- Claim C2: `upsert_comment_period` is idempotent on `document_id` —
upserting `d1` then `d2` with the same document id into a store not yet
holding that id yields exactly one row for it; that row's required fields
match `d2`, each optional field matches `d2` when provided there and
otherwise `d1` when provided there; and both calls return the same row
identity. -/
theorem C2_upsert_idempotent (s : DB) (d1 d2 : Draft)
    (hdoc : d1.document_id = d2.document_id)
    (habs : ∀ r ∈ s.rows, r.document_id ≠ d1.document_id) :
    (((upsertDraft (upsertDraft s d1).1 d2).1.rows.filter
        (fun r => r.document_id == d2.document_id)).length = 1)
  ∧ (∀ r ∈ (upsertDraft (upsertDraft s d1).1 d2).1.rows,
       r.document_id = d2.document_id →
         r.docket_id = d2.docket_id ∧ r.title = d2.title ∧
         r.agency_id = d2.agency_id ∧ r.agency_name = d2.agency_name ∧
         r.posted_date = d2.posted_date ∧ r.comment_end_date = d2.comment_end_date ∧
         r.regulations_url = d2.regulations_url ∧
         ∀ f ∈ optional_fields,
           optField r f = (providedOpt d2.kwargs f).or (providedOpt d1.kwargs f))
  ∧ (upsertDraft s d1).2 = (upsertDraft (upsertDraft s d1).1 d2).2 := by
  have hne1 : ∀ r ∈ s.rows, (r.document_id == d1.document_id) = false := by
    intro r hr; simpa using habs r hr
  have hne2 : ∀ r ∈ s.rows, (r.document_id == d2.document_id) = false := by
    intro r hr; rw [← hdoc]; exact hne1 r hr
  have hany1 : s.rows.any (fun r => r.document_id == d1.document_id) = false :=
    List.any_eq_false.mpr (fun r hr => by simp [hne1 r hr])
  have h1 : upsertDraft s d1 =
      ({ s with rows := s.rows ++ [upsertNewRow s d1], nextId := s.nextId + 1 },
       s.nextId) := by
    rw [upsertDraft_eq, if_neg (by simp [hany1])]
  have hnewdoc : (upsertNewRow s d1).document_id = d2.document_id := hdoc
  have hfind : (s.rows ++ [upsertNewRow s d1]).find?
      (fun r => r.document_id == d2.document_id) = some (upsertNewRow s d1) := by
    rw [List.find?_append, List.find?_eq_none.mpr (fun x hx => by simp [hne2 x hx])]
    simp [hnewdoc]
  have hmapfix : s.rows.map (upsertFn d2) = s.rows := by
    calc s.rows.map (upsertFn d2) = s.rows.map id :=
          List.map_congr_left (fun r hr => by simp [upsertFn, hne2 r hr])
      _ = s.rows := List.map_id _
  have hupd : upsertFn d2 (upsertNewRow s d1) =
      updateRow d2.docket_id d2.title d2.agency_id d2.agency_name
        d2.posted_date d2.comment_end_date d2.regulations_url
        (providedOpt d2.kwargs) (upsertNewRow s d1) := by
    unfold upsertFn
    rw [if_pos (by simp [hnewdoc])]
  have h2 : upsertDraft
      ({ s with rows := s.rows ++ [upsertNewRow s d1], nextId := s.nextId + 1 }) d2 =
      ({ s with
          rows := s.rows ++ [upsertFn d2 (upsertNewRow s d1)]
          nextId := s.nextId + 1 }, s.nextId) := by
    rw [upsertDraft_eq, if_pos]
    · simp only [List.map_append, hmapfix, hfind]
      rfl
    · simp only [List.any_append, List.any_cons, List.any_nil, Bool.or_eq_true]
      right; left
      simp [hnewdoc]
  have hupddoc : (upsertFn d2 (upsertNewRow s d1)).document_id = d2.document_id := by
    rw [upsertFn_docid]; exact hnewdoc
  rw [h1]
  simp only at h2 ⊢
  rw [h2]
  simp only
  refine ⟨?_, ?_, trivial⟩
  · rw [List.filter_append, List.filter_eq_nil_iff.mpr (fun r hr => by simp [hne2 r hr])]
    simp [hupddoc]
  · intro r hr hrdoc
    rw [List.mem_append, List.mem_singleton] at hr
    rcases hr with hr | rfl
    · exact absurd (hrdoc.trans hdoc.symm) (habs r hr)
    · rw [hupd]
      refine ⟨rfl, rfl, rfl, rfl, rfl, rfl, rfl, ?_⟩
      intro f hf
      fin_cases hf <;> rfl

/-- Witness for C2: two drafts for the same document id against an empty
store; the returned identities coincide. -/
theorem C2_upsert_idempotent_witness :
    (upsertDraft ⟨[], 1, []⟩
      ⟨"FDA-1", "FDA-1", "T1", "FDA", "FDA", 0, 30, "u",
       [("abstract", some "A"), ("topics", some "[1]")]⟩).2 =
    (upsertDraft
      (upsertDraft ⟨[], 1, []⟩
        ⟨"FDA-1", "FDA-1", "T1", "FDA", "FDA", 0, 30, "u",
         [("abstract", some "A"), ("topics", some "[1]")]⟩).1
      ⟨"FDA-1", "FDA-1", "T2", "FDA", "FDA", 0, 30, "u",
       [("abstract", some "B")]⟩).2 :=
  (C2_upsert_idempotent ⟨[], 1, []⟩
    ⟨"FDA-1", "FDA-1", "T1", "FDA", "FDA", 0, 30, "u",
     [("abstract", some "A"), ("topics", some "[1]")]⟩
    ⟨"FDA-1", "FDA-1", "T2", "FDA", "FDA", 0, 30, "u",
     [("abstract", some "B")]⟩ rfl (by decide)).2.2

/-- Claim C3: exact-date milestone windowing — for `N` in `{7, 3, 1}`,
`get_closing_soon N` succeeds and returns exactly the stored rows whose
`comment_end_date` equals `today + N` and whose flag for that milestone is
still `false`; in particular a period ending at `today + 7` is selected by
the 7-day query and one ending at `today + 8` is not. -/
theorem C3_exact_date_window (s : DB) (today days : Int) (m : PostType)
    (hdm : (days = 7 ∧ m = PostType.sevenDay) ∨ (days = 3 ∧ m = PostType.threeDay) ∨
           (days = 1 ∧ m = PostType.lastDay)) :
    (∀ e, get_closing_soon s today days ≠ Except.error e)
  ∧ (∀ r, r ∈ ((get_closing_soon s today days).toOption.getD []) ↔
        r ∈ s.rows ∧ r.comment_end_date = today + days ∧ flagOf r m = false)
  ∧ (∀ r ∈ s.rows, days = 7 → r.comment_end_date = today + 8 →
        r ∉ ((get_closing_soon s today days).toOption.getD [])) := by
  rcases hdm with ⟨rfl, rfl⟩ | ⟨rfl, rfl⟩ | ⟨rfl, rfl⟩
  · have hgc : get_closing_soon s today 7 =
        Except.ok ((s.rows.filter (fun r =>
          r.comment_end_date == today + 7 &&
            flagOf r PostType.sevenDay == false)).mergeSort rowLE) := by
      simp [get_closing_soon]
    refine ⟨?_, ?_, ?_⟩
    · intro e; rw [hgc]; simp
    · intro r
      rw [hgc]
      simp [Except.toOption, List.mem_filter, and_assoc]
    · intro r hr _ h8 hmem
      rw [hgc] at hmem
      simp [Except.toOption, List.mem_filter] at hmem
      omega
  · have hgc : get_closing_soon s today 3 =
        Except.ok ((s.rows.filter (fun r =>
          r.comment_end_date == today + 3 &&
            flagOf r PostType.threeDay == false)).mergeSort rowLE) := by
      simp [get_closing_soon]
    refine ⟨?_, ?_, ?_⟩
    · intro e; rw [hgc]; simp
    · intro r
      rw [hgc]
      simp [Except.toOption, List.mem_filter, and_assoc]
    · intro r hr h7
      exact absurd h7 (by decide)
  · have hgc : get_closing_soon s today 1 =
        Except.ok ((s.rows.filter (fun r =>
          r.comment_end_date == today + 1 &&
            flagOf r PostType.lastDay == false)).mergeSort rowLE) := by
      simp [get_closing_soon]
    refine ⟨?_, ?_, ?_⟩
    · intro e; rw [hgc]; simp
    · intro r
      rw [hgc]
      simp [Except.toOption, List.mem_filter, and_assoc]
    · intro r hr h7
      exact absurd h7 (by decide)

/-- Witness for C3 at a concrete store: the single stored row closes at
`today + 7` with the 7-day flag unset, and the 7-day query selects it. -/
theorem C3_exact_date_window_witness :
    (⟨1, "EPA-1", "EPA-1", "T", "EPA", "EPA", 0, 7, "u",
      none, none, none, none, none, none, none, none, none,
      false, false, false, false⟩ : Row) ∈
      ((get_closing_soon
        ⟨[⟨1, "EPA-1", "EPA-1", "T", "EPA", "EPA", 0, 7, "u",
           none, none, none, none, none, none, none, none, none,
           false, false, false, false⟩], 2, []⟩ 0 7).toOption.getD []) ↔
      ((⟨1, "EPA-1", "EPA-1", "T", "EPA", "EPA", 0, 7, "u",
        none, none, none, none, none, none, none, none, none,
        false, false, false, false⟩ : Row) ∈
        [(⟨1, "EPA-1", "EPA-1", "T", "EPA", "EPA", 0, 7, "u",
          none, none, none, none, none, none, none, none, none,
          false, false, false, false⟩ : Row)] ∧
      ((⟨1, "EPA-1", "EPA-1", "T", "EPA", "EPA", 0, 7, "u",
        none, none, none, none, none, none, none, none, none,
        false, false, false, false⟩ : Row)).comment_end_date = 0 + 7 ∧
      flagOf ⟨1, "EPA-1", "EPA-1", "T", "EPA", "EPA", 0, 7, "u",
        none, none, none, none, none, none, none, none, none,
        false, false, false, false⟩ PostType.sevenDay = false) :=
  (C3_exact_date_window
    ⟨[⟨1, "EPA-1", "EPA-1", "T", "EPA", "EPA", 0, 7, "u",
       none, none, none, none, none, none, none, none, none,
       false, false, false, false⟩], 2, []⟩ 0 7 PostType.sevenDay
    (Or.inl ⟨rfl, rfl⟩)).2.1
    ⟨1, "EPA-1", "EPA-1", "T", "EPA", "EPA", 0, 7, "u",
     none, none, none, none, none, none, none, none, none,
     false, false, false, false⟩

/-- Claim C10: `upsert_comment_period` treats a keyword argument supplied
as Python `None` exactly like an absent field, and silently ignores any
keyword argument whose name is outside the whitelist of nine optional
fields. -/
theorem C10_kwargs_none_and_whitelist (s : DB)
    (document_id docket_id title agency_id agency_name : String)
    (posted_date comment_end_date : Int) (regulations_url : String)
    (n : String) (v : Option String) (rest : List (String × Option String)) :
    (rest.lookup n = none →
      upsert_comment_period s document_id docket_id title agency_id agency_name
        posted_date comment_end_date regulations_url ((n, none) :: rest) =
      upsert_comment_period s document_id docket_id title agency_id agency_name
        posted_date comment_end_date regulations_url rest)
  ∧ (n ∉ optional_fields →
      upsert_comment_period s document_id docket_id title agency_id agency_name
        posted_date comment_end_date regulations_url ((n, v) :: rest) =
      upsert_comment_period s document_id docket_id title agency_id agency_name
        posted_date comment_end_date regulations_url rest) := by
  constructor
  · intro hlook
    unfold upsert_comment_period
    congr 1
    funext f
    unfold providedOpt
    by_cases hf : f ∈ optional_fields
    · rw [if_pos hf, if_pos hf]
      by_cases hfn : f = n
      · subst hfn
        simp [List.lookup, hlook]
      · have hb : (f == n) = false := beq_eq_false_iff_ne.mpr hfn
        simp [List.lookup, hb]
    · rw [if_neg hf, if_neg hf]
  · intro hn
    unfold upsert_comment_period
    congr 1
    funext f
    unfold providedOpt
    by_cases hf : f ∈ optional_fields
    · rw [if_pos hf, if_pos hf]
      have hfn : f ≠ n := fun h => hn (h ▸ hf)
      have hb : (f == n) = false := beq_eq_false_iff_ne.mpr hfn
      simp [List.lookup, hb]
    · rw [if_neg hf, if_neg hf]

/-- Witness for C10: a `None`-valued keyword argument changes nothing. -/
theorem C10_kwargs_none_and_whitelist_witness :
    upsert_comment_period ⟨[], 1, []⟩ "D-1" "D-1" "T" "A" "A" 0 30 "u"
      [("abstract", none)] =
    upsert_comment_period ⟨[], 1, []⟩ "D-1" "D-1" "T" "A" "A" 0 30 "u" [] :=
  (C10_kwargs_none_and_whitelist ⟨[], 1, []⟩ "D-1" "D-1" "T" "A" "A" 0 30 "u"
    "abstract" none []).1 rfl

/-! ## Fetch engine lemmas -/

theorem fetchPageLoop_exhausted {maxRetries attempt : Nat} (h : maxRetries ≤ attempt)
    (outcomes : List Outcome) :
    fetchPageLoop maxRetries attempt outcomes = (.failed, []) := by
  rw [fetchPageLoop.eq_def]
  rw [if_neg (by omega)]

theorem fetchPageLoop_nil (maxRetries attempt : Nat) :
    fetchPageLoop maxRetries attempt [] = (.failed, []) := by
  conv_lhs => rw [fetchPageLoop]
  split <;> simp

theorem fetchPageLoop_timeout {maxRetries attempt : Nat} (h : attempt < maxRetries)
    (rest : List Outcome) :
    fetchPageLoop maxRetries attempt (Outcome.timeout :: rest) =
      ((fetchPageLoop maxRetries (attempt + 1) rest).1,
       ((2 : Int) ^ attempt) :: (fetchPageLoop maxRetries (attempt + 1) rest).2) := by
  conv_lhs => rw [fetchPageLoop]
  rw [if_pos h]

theorem fetchPageLoop_connError {maxRetries attempt : Nat} (h : attempt < maxRetries)
    (rest : List Outcome) :
    fetchPageLoop maxRetries attempt (Outcome.connError :: rest) =
      ((fetchPageLoop maxRetries (attempt + 1) rest).1,
       ((2 : Int) ^ attempt) :: (fetchPageLoop maxRetries (attempt + 1) rest).2) := by
  conv_lhs => rw [fetchPageLoop]
  rw [if_pos h]

theorem fetchPageLoop_5xx {maxRetries attempt status : Nat} (h : attempt < maxRetries)
    (h5 : 500 ≤ status) (h6 : status < 600) (ra : Option String) (body : String)
    (rest : List Outcome) :
    fetchPageLoop maxRetries attempt (Outcome.resp status ra body :: rest) =
      ((fetchPageLoop maxRetries (attempt + 1) rest).1,
       ((2 : Int) ^ attempt) :: (fetchPageLoop maxRetries (attempt + 1) rest).2) := by
  have hb : (status == 429) = false := beq_eq_false_iff_ne.mpr (by omega)
  conv_lhs => rw [fetchPageLoop]
  rw [if_pos h]
  simp [hb, h5, h6]

theorem fetchPageLoop_4xx {maxRetries attempt status : Nat} (h : attempt < maxRetries)
    (h4 : 400 ≤ status) (h5 : status < 500) (h429 : status ≠ 429) (ra : Option String)
    (body : String) (rest : List Outcome) :
    fetchPageLoop maxRetries attempt (Outcome.resp status ra body :: rest) =
      (.failed, []) := by
  have hb : (status == 429) = false := beq_eq_false_iff_ne.mpr h429
  conv_lhs => rw [fetchPageLoop]
  rw [if_pos h]
  simp [hb, show ¬ 500 ≤ status by omega, h4, h5]

theorem fetchPageLoop_429 {maxRetries attempt : Nat} (h : attempt < maxRetries)
    {ra : Option String} {w : Int} (hw : retryAfterWait ra = some w) (hw0 : 0 ≤ w)
    (body : String) (rest : List Outcome) :
    fetchPageLoop maxRetries attempt (Outcome.resp 429 ra body :: rest) =
      ((fetchPageLoop maxRetries (attempt + 1) rest).1,
       w :: (fetchPageLoop maxRetries (attempt + 1) rest).2) := by
  conv_lhs => rw [fetchPageLoop]
  rw [if_pos h]
  simp only [show ((429 : Nat) == 429) = true from rfl, if_true, hw]
  rw [if_neg (by omega)]

/-- Claim C7: `fetch_page`'s retry policy — a non-429 4xx fails immediately
with no retry and no backoff sleep; a 5xx, a timeout, or a connection error
sleeps `2 ^ attempt` seconds and retries; and a run of retryable outcomes
exhausting every attempt yields a failure result, never a success. -/
theorem C7_retry_policy (maxRetries : Nat) (hpos : 0 < maxRetries) :
    (∀ status ra body rest, 400 ≤ status → status < 500 → status ≠ 429 →
       fetch_page maxRetries (Outcome.resp status ra body :: rest) = (.failed, []))
  ∧ (∀ attempt status ra body rest, attempt < maxRetries →
       500 ≤ status → status < 600 →
       fetchPageLoop maxRetries attempt (Outcome.resp status ra body :: rest) =
         ((fetchPageLoop maxRetries (attempt + 1) rest).1,
          ((2 : Int) ^ attempt) :: (fetchPageLoop maxRetries (attempt + 1) rest).2))
  ∧ (∀ attempt rest, attempt < maxRetries →
       fetchPageLoop maxRetries attempt (Outcome.timeout :: rest) =
         ((fetchPageLoop maxRetries (attempt + 1) rest).1,
          ((2 : Int) ^ attempt) :: (fetchPageLoop maxRetries (attempt + 1) rest).2) ∧
       fetchPageLoop maxRetries attempt (Outcome.connError :: rest) =
         ((fetchPageLoop maxRetries (attempt + 1) rest).1,
          ((2 : Int) ^ attempt) :: (fetchPageLoop maxRetries (attempt + 1) rest).2))
  ∧ (∀ outcomes attempt, (∀ o ∈ outcomes, retryable o = true) →
       (fetchPageLoop maxRetries attempt outcomes).1 = .failed) := by
  refine ⟨?_, ?_, ?_, ?_⟩
  · intro status ra body rest h4 h5 h429
    exact fetchPageLoop_4xx hpos h4 h5 h429 ra body rest
  · intro attempt status ra body rest h h5 h6
    exact fetchPageLoop_5xx h h5 h6 ra body rest
  · intro attempt rest h
    exact ⟨fetchPageLoop_timeout h rest, fetchPageLoop_connError h rest⟩
  · intro outcomes
    induction outcomes with
    | nil =>
      intro attempt _
      rw [fetchPageLoop_nil]
    | cons o rest ih =>
      intro attempt hall
      have ho := hall o (List.mem_cons_self o rest)
      have hrest : ∀ x ∈ rest, retryable x = true :=
        fun x hx => hall x (List.mem_cons_of_mem o hx)
      by_cases hatt : attempt < maxRetries
      · cases o with
        | resp status ra body =>
          simp only [retryable, Bool.and_eq_true, decide_eq_true_eq] at ho
          rw [fetchPageLoop_5xx hatt ho.1 ho.2 ra body rest]
          exact ih (attempt + 1) hrest
        | timeout =>
          rw [fetchPageLoop_timeout hatt rest]
          exact ih (attempt + 1) hrest
        | connError =>
          rw [fetchPageLoop_connError hatt rest]
          exact ih (attempt + 1) hrest
        | reqError => simp [retryable] at ho
      · rw [fetchPageLoop_exhausted (by omega)]

/-- Witness for C7: three consecutive retryable outcomes exhaust the three
default attempts and the call fails. -/
theorem C7_retry_policy_witness :
    (fetchPageLoop 3 0
      [Outcome.resp 503 none "", Outcome.timeout, Outcome.connError]).1 =
      FetchResult.failed :=
  (C7_retry_policy 3 (by decide)).2.2.2
    [Outcome.resp 503 none "", Outcome.timeout, Outcome.connError] 0 (by decide)

/-- Counterexample to claim C4 as stated: with `max_retries = 1`, a 429
followed by a 200 yields failure with the 60-second default pause — the 429
branch's `continue` advances the `for attempt in range(max_retries)` loop,
so the retry of the same request consumed the only attempt and the 200 was
never fetched. -/
theorem C4_429_counterexample :
    fetch_page 1 [Outcome.resp 429 none "", Outcome.resp 200 none "ok"] =
      (FetchResult.failed, [60]) := by decide

/-- Claim C4 (amended): on a 429, `fetch_page` reads the server's
`Retry-After` (defaulting to 60 when the header is absent), sleeps the full
duration, and retries the same request — but the retry consumes one of the
`max_retries` attempts. -/
theorem C4_429_wait_and_retry (maxRetries attempt : Nat) (h : attempt < maxRetries)
    (ra : Option String) (body : String) (rest : List Outcome) (w : Int)
    (hw : retryAfterWait ra = some w) (hw0 : 0 ≤ w) :
    fetchPageLoop maxRetries attempt (Outcome.resp 429 ra body :: rest) =
      ((fetchPageLoop maxRetries (attempt + 1) rest).1,
       w :: (fetchPageLoop maxRetries (attempt + 1) rest).2)
  ∧ retryAfterWait none = some 60 :=
  ⟨fetchPageLoop_429 h hw hw0 body rest, rfl⟩

/-- Witness for C4 (amended): a 429 with no header sleeps 60 seconds, then
the second of two attempts fetches the 200. -/
theorem C4_429_wait_and_retry_witness :
    fetchPageLoop 2 0 [Outcome.resp 429 none "", Outcome.resp 200 none "ok"] =
      (FetchResult.ok ⟨200, "ok"⟩, [60]) ∧ retryAfterWait none = some 60 :=
  C4_429_wait_and_retry 2 0 (by decide) none "" [Outcome.resp 200 none "ok"] 60
    rfl (by decide)

theorem fetchPageLoop_no_raise (maxRetries : Nat) :
    ∀ (outcomes : List Outcome) (attempt : Nat),
      (∀ o ∈ outcomes, safe429 o = true) →
      ∀ msg, (fetchPageLoop maxRetries attempt outcomes).1 ≠ FetchResult.raised msg := by
  intro outcomes
  induction outcomes with
  | nil =>
    intro attempt _ msg
    rw [fetchPageLoop_nil]
    simp
  | cons o rest ih =>
    intro attempt hall msg
    have ho := hall o (List.mem_cons_self o rest)
    have hrest : ∀ x ∈ rest, safe429 x = true :=
      fun x hx => hall x (List.mem_cons_of_mem o hx)
    by_cases hatt : attempt < maxRetries
    · cases o with
      | resp status ra body =>
        by_cases hb : (status == 429) = true
        · have hst : status = 429 := by simpa using hb
          subst hst
          cases hra : retryAfterWait ra with
          | none => simp [safe429, hra] at ho
          | some w =>
            simp [safe429, hra] at ho
            rw [fetchPageLoop_429 hatt hra ho body rest]
            simpa using ih (attempt + 1) hrest msg
        · have hb2 : (status == 429) = false := by simpa using hb
          unfold fetchPageLoop
          rw [if_pos hatt]
          simp only [hb2, Bool.false_eq_true, if_false]
          split
          · simpa using ih (attempt + 1) hrest msg
          · split
            · simp
            · simp
      | timeout =>
        rw [fetchPageLoop_timeout hatt rest]
        simpa using ih (attempt + 1) hrest msg
      | connError =>
        rw [fetchPageLoop_connError hatt rest]
        simpa using ih (attempt + 1) hrest msg
      | reqError =>
        unfold fetchPageLoop
        rw [if_pos hatt]
        simp
    · rw [fetchPageLoop_exhausted (by omega)]
      simp

/-- Counterexample to claim C8 as stated: `fetch_page` can let an unhandled
exception escape — RFC 7231 allows `Retry-After` to be an HTTP-date, and
`int(response.headers.get('Retry-After', 60))` then raises a `ValueError`
that none of the `except requests.exceptions.*` clauses catch. -/
theorem C8_escape_counterexample :
    fetch_page 3 [Outcome.resp 429 (some "Wed, 21 Oct 2015 07:28:00 GMT") "x"] =
      (FetchResult.raised "ValueError", []) := by decide

/-- Claim C8 (amended): `fetch_page` returns a response or a failure value
— no exception escapes — for every input in which each 429 response carries
either no `Retry-After` header or one parsing as a nonnegative decimal
integer; transport-level timeouts, connection errors and other request
exceptions never escape. -/
theorem C8_no_unhandled_escape (maxRetries : Nat) (outcomes : List Outcome)
    (h : ∀ o ∈ outcomes, safe429 o = true) :
    ∀ msg, (fetch_page maxRetries outcomes).1 ≠ FetchResult.raised msg :=
  fun msg => fetchPageLoop_no_raise maxRetries outcomes 0 h msg

/-- Witness for C8 (amended) at a concrete outcome sequence containing a
timeout, a well-formed 429 and a success. -/
theorem C8_no_unhandled_escape_witness :
    (fetch_page 3
      [Outcome.timeout, Outcome.resp 429 (some "30") "", Outcome.resp 200 none "ok"]).1 ≠
      FetchResult.raised "ValueError" :=
  C8_no_unhandled_escape 3
    [Outcome.timeout, Outcome.resp 429 (some "30") "", Outcome.resp 200 none "ok"]
    (by decide) "ValueError"

/-! ## Pagination -/

theorem paginateLoop_failure {α : Type} {f : PageResult α} (hf : f.isFailure = true)
    (rest : List (PageResult α)) (cp : Nat) (acc : List α) :
    paginateLoop (f :: rest) cp acc = acc := by
  cases f <;> simp [PageResult.isFailure] at hf ⊢ <;> rw [paginateLoop]

theorem paginateLoop_ok_failure {α : Type} {f : PageResult α} (hf : f.isFailure = true)
    (rest : List (PageResult α)) :
    ∀ (okPages : List (List α × Nat)) (cp : Nat) (acc : List α),
      contOk cp okPages = true →
      paginateLoop ((okPages.map (fun pt => PageResult.ok pt.1 pt.2)) ++ f :: rest)
          cp acc
        = acc ++ (okPages.map Prod.fst).flatten := by
  intro okPages
  induction okPages with
  | nil =>
    intro cp acc _
    simp [paginateLoop_failure hf rest cp acc]
  | cons pt ps ih =>
    intro cp acc hcont
    obtain ⟨d, t⟩ := pt
    simp only [contOk, Bool.and_eq_true, decide_eq_true_eq] at hcont
    rw [List.map_cons, List.cons_append]
    rw [show paginateLoop (PageResult.ok d t :: (ps.map (fun pt => PageResult.ok pt.1 pt.2) ++ f :: rest)) cp acc
        = if t ≤ cp then acc ++ d
          else paginateLoop (ps.map (fun pt => PageResult.ok pt.1 pt.2) ++ f :: rest)
            (cp + 1) (acc ++ d) from rfl]
    rw [if_neg (by omega)]
    rw [ih (cp + 1) (acc ++ d) hcont.2]
    simp [List.append_assoc]

/-- Claim C5: pagination is fail-open — when the server answers pages
`1..N-1` successfully and page `N` fails (fetch failure, JSON parse error,
or missing `data`), `get_new_comment_periods` returns exactly the
accumulated documents of pages `1..N-1`; no item from a successfully
fetched page is dropped because a later page failed. -/
theorem C5_pagination_fail_open {α : Type} (okPages : List (List α × Nat))
    (f : PageResult α) (hf : f.isFailure = true) (rest : List (PageResult α))
    (hcont : contOk 1 okPages = true) :
    get_new_comment_periods ((okPages.map (fun pt => PageResult.ok pt.1 pt.2)) ++ f :: rest)
      = (okPages.map Prod.fst).flatten := by
  unfold get_new_comment_periods
  rw [paginateLoop_ok_failure hf rest okPages 1 [] hcont]
  simp

/-- Witness for C5: page 1 yields two documents of a reported three pages,
page 2 fails, page 3 would have succeeded; the two documents are kept. -/
theorem C5_pagination_fail_open_witness :
    get_new_comment_periods
      [PageResult.ok ["a", "b"] 3, PageResult.fetchFail, PageResult.ok ["c"] 3]
      = ["a", "b"] :=
  C5_pagination_fail_open [(["a", "b"], 3)] PageResult.fetchFail (by decide)
    [PageResult.ok ["c"] 3] (by decide)

/-! ## Enrichment -/

/-- Claim C6: merge abstract precedence — a non-empty primary abstract
survives the merge regardless of the secondary; an empty or absent primary
abstract is replaced by a non-empty secondary abstract. -/
theorem C6_merge_abstract_precedence (p : Period) (d : FrDoc) :
    (truthy p.abstract = true → (mergeFrData p d).abstract = p.abstract)
  ∧ (truthy p.abstract = false → truthy d.abstract = true →
       (mergeFrData p d).abstract = d.abstract) := by
  constructor
  · intro hp
    simp only [mergeFrData, hp, Bool.not_true, Bool.and_false, Bool.false_eq_true,
      if_false]
    split
    · split <;> rfl
    · split <;> rfl
  · intro hp hd
    simp only [mergeFrData, hp, hd, Bool.not_false, Bool.and_true, if_true]
    split
    · split <;> rfl
    · split <;> rfl

/-- Witness for C6: a primary draft with an empty abstract takes the
secondary's non-empty abstract. -/
theorem C6_merge_abstract_precedence_witness :
    (mergeFrData ⟨"D-1", some "https://www.federalregister.gov/documents/X", some "",
        none, none, []⟩ ⟨some "Secondary abstract", [], none⟩).abstract =
      some "Secondary abstract" :=
  (C6_merge_abstract_precedence
    ⟨"D-1", some "https://www.federalregister.gov/documents/X", some "",
     none, none, []⟩ ⟨some "Secondary abstract", [], none⟩).2 (by decide) (by decide)

theorem mergeFrData_frame (p : Period) (d : FrDoc) :
    (mergeFrData p d).document_id = p.document_id ∧
    (mergeFrData p d).federal_register_url = p.federal_register_url ∧
    (mergeFrData p d).rest = p.rest := by
  unfold mergeFrData
  by_cases h1 : (truthy d.abstract && !truthy p.abstract) = true <;>
    by_cases h2 : d.topics = [] <;>
      by_cases h3 : (truthy d.action && !truthy p.document_type) = true <;>
        simp [h1, h2, h3]

/-- Claim C9: enrichment frame — `enrich_period` changes at most
`abstract`, `keywords` and `document_type`; every other field equals the
primary's, and with no Federal Register cross-reference URL in the primary
the result is the primary draft unchanged. -/
theorem C9_enrich_frame (fetchDoc : String → Option FrDoc) (p : Period) :
    ((enrich_period fetchDoc p).document_id = p.document_id
      ∧ (enrich_period fetchDoc p).federal_register_url = p.federal_register_url
      ∧ (enrich_period fetchDoc p).rest = p.rest)
  ∧ (truthy p.federal_register_url = false → enrich_period fetchDoc p = p) := by
  constructor
  · unfold enrich_period
    dsimp only
    repeat' split
    all_goals first
      | exact ⟨rfl, rfl, rfl⟩
      | exact mergeFrData_frame p _
  · intro hfr
    unfold enrich_period
    dsimp only
    rw [hfr]
    rfl

/-- Witness for C9: a primary draft with no cross-reference URL passes
through unchanged. -/
theorem C9_enrich_frame_witness :
    enrich_period (fun _ => none)
      ⟨"D-2", none, some "A", some "k1, k2", some "Rule", [("posted_date", "2026-01-01")]⟩ =
      ⟨"D-2", none, some "A", some "k1, k2", some "Rule", [("posted_date", "2026-01-01")]⟩ :=
  (C9_enrich_frame (fun _ => none)
    ⟨"D-2", none, some "A", some "k1, k2", some "Rule", [("posted_date", "2026-01-01")]⟩).2
    rfl

end CommentBot
